import Mathlib

/-!
Verification of the investor-relations ledger and synchronization layer.

The development shallowly embeds the persistence service of the repository
(the `FirestoreService` class and the `MessageService` class) over an explicit
document-store state.  Documents are records with optional fields (absent
fields model fields that a stored document may lack); JavaScript truthiness
defaulting (`x || d`) is embedded explicitly.  Monetary amounts are embedded
as rationals, and server timestamps as a natural-number clock held in the
store state that advances on every write, matching the monotonically
increasing commit times the store assigns.  Operations thread the store state
and return errors explicitly; a write that has already happened persists even
when a later step of the same operation fails, matching the remote store,
which never rolls back an earlier committed write.
-/

/-- JavaScript truthiness defaulting `x || d` for an optional string field:
an absent field and the empty string both fall back to the default. -/
def jsOrStr (v : Option String) (d : String) : String :=
  match v with
  | some s => if s = "" then d else s
  | none => d

/-- JavaScript `x || null` for an optional string: the empty string collapses
to null (absent). -/
def jsOrNullStr (v : Option String) : Option String :=
  match v with
  | some s => if s = "" then none else some s
  | none => none

/-- Document identifiers, as the store uses them. -/
abbrev DocId := String

/-- Code-point comparison of character lists, embedding the lexicographic
order the store uses on string-valued fields and document identifiers. -/
def lexLeChars : List Char → List Char → Bool
  | [], _ => true
  | _ :: _, [] => false
  | a :: as, b :: bs =>
    if a.toNat < b.toNat then true
    else if b.toNat < a.toNat then false
    else lexLeChars as bs

/-- Lexicographic order on strings by code points. -/
def idLe (a b : String) : Bool := lexLeChars a.data b.data

/-- A document of the users collection (role, profile and balance fields;
only the fields the verified operations touch are carried). -/
structure UserDoc where
  role : String
  name : Option String
  email : Option String
  currentBalance : Option ℚ
  accountStatus : Option String
  isActive : Option Bool
  updatedAt : Option Nat
  deriving DecidableEq

/-- A document of the transactions collection. -/
structure TxDoc where
  investorId : String
  type : Option String
  amount : Option ℚ
  date : Option String
  status : Option String
  description : Option String
  createdAt : Option Nat
  updatedAt : Option Nat
  deriving DecidableEq

/-- A document of the withdrawalRequests collection. -/
structure WithdrawalDoc where
  investorId : String
  investorName : Option String
  amount : Option ℚ
  date : Option String
  status : Option String
  approvalDate : Option Nat
  processedBy : Option String
  processedAt : Option Nat
  reason : Option String
  w8benStatus : Option String
  w8benApprovedAt : Option Nat
  w8benRejectionReason : Option String
  createdAt : Option Nat
  updatedAt : Option Nat
  deriving DecidableEq

/-- A document of the commissions collection.  `withdrawalAmount` and
`commissionAmount` stay optional: when the source request document lacks an
amount, the JavaScript arithmetic poisons both values (modelled as `none`). -/
structure CommissionDoc where
  investorId : String
  investorName : Option String
  withdrawalId : DocId
  withdrawalAmount : Option ℚ
  commissionRate : ℚ
  commissionAmount : Option ℚ
  date : String
  status : String
  createdAt : Nat
  deriving DecidableEq

/-- A document of the conversations collection. -/
structure ConversationDoc where
  participants : List String
  participantNames : List String
  participantRoles : List String
  lastMessage : String
  lastMessageTime : Nat
  adminId : String
  affiliateId : String
  createdAt : Nat
  updatedAt : Nat
  deriving DecidableEq

/-- A document of the affiliateMessages collection. -/
structure MessageDoc where
  senderId : String
  senderName : String
  senderRole : String
  content : String
  timestamp : Nat
  conversationId : DocId
  replyTo : Option String
  priority : String
  status : String
  createdAt : Nat
  deriving DecidableEq

/-- The external document store together with the ambient environment of one
request: the server clock driving serverTimestamp (advanced on every write),
the source of fresh auto-generated document ids, the current calendar date
string, whether the composite index for ordered transaction queries is
provisioned, and whether writes to the transactions collection fail
(failure injection for the external store). -/
structure Store where
  users : List (DocId × UserDoc)
  transactions : List (DocId × TxDoc)
  withdrawalRequests : List (DocId × WithdrawalDoc)
  commissions : List (DocId × CommissionDoc)
  conversations : List (DocId × ConversationDoc)
  affiliateMessages : List (DocId × MessageDoc)
  time : Nat
  nextId : Nat
  todayDate : String
  txIndexAvailable : Bool
  txWriteFails : Bool

/-- Fresh auto-generated document id (addDoc). -/
def freshId (n : Nat) : DocId := "auto_" ++ toString n

/-- getDoc: the document stored under an id, if any. -/
def findDoc {α : Type} : List (DocId × α) → DocId → Option α
  | [], _ => none
  | p :: rest, id => if p.1 = id then some p.2 else findDoc rest id

/-- updateDoc: apply an update to the document stored under an id; fails
(returns none) when no such document exists, as the store client does. -/
def updateColl {α : Type} : List (DocId × α) → DocId → (α → α) → Option (List (DocId × α))
  | [], _, _ => none
  | p :: rest, id, f =>
    if p.1 = id then some ((p.1, f p.2) :: rest)
    else (updateColl rest id f).map (p :: ·)

/-- setDoc: create the document under an id, or overwrite it if present. -/
def setDocColl {α : Type} (coll : List (DocId × α)) (id : DocId) (d : α) :
    List (DocId × α) :=
  match updateColl coll id (fun _ => d) with
  | some coll2 => coll2
  | none => coll ++ [(id, d)]

/-- The investor view produced by FirestoreService.getInvestorById and by
processUserDocsAsInvestors: raw user fields with JavaScript truthiness
defaults applied (only the fields the verified claims touch are carried). -/
structure InvestorView where
  id : DocId
  name : String
  currentBalance : ℚ
  accountStatus : String
  deriving DecidableEq

/-- Field defaulting applied when a user document is read back as an
investor. -/
def viewInvestor (id : DocId) (u : UserDoc) : InvestorView :=
  { id := id
    name := jsOrStr u.name "Unknown Investor"
    currentBalance := (u.currentBalance).getD 0
    accountStatus := jsOrStr u.accountStatus "Active" }

/-- FirestoreService.getInvestorById: fetch the user document; return none
when the document is absent or its role is not investor. -/
def getInvestorById (s : Store) (id : DocId) : Option InvestorView :=
  match findDoc s.users id with
  | none => none
  | some u => if u.role = "investor" then some (viewInvestor id u) else none

/-- The AccountLedger getBalance operation of the specification, realised by
getInvestorById: the current balance, or NotFound when no investor document
exists. -/
def getBalance (s : Store) (id : DocId) : Except String ℚ :=
  match getInvestorById s id with
  | some v => Except.ok v.currentBalance
  | none => Except.error "NotFound"

/-- The field update updateInvestorBalance writes. -/
def balanceUpdate (now : Nat) (newBalance : ℚ) (u : UserDoc) : UserDoc :=
  { u with currentBalance := some newBalance, updatedAt := some now }

/-- FirestoreService.updateInvestorBalance: updateDoc on the user document
with the new balance and a fresh updatedAt stamp. -/
def updateInvestorBalance (s : Store) (id : DocId) (newBalance : ℚ) :
    Store × Except String Unit :=
  match updateColl s.users id (balanceUpdate s.time newBalance) with
  | some users2 =>
    ({ s with users := users2, time := s.time + 1 }, Except.ok ())
  | none => (s, Except.error "Failed to update account balance")

/-- The transaction payload a caller hands to addTransaction
(Transaction without id). -/
structure TxInput where
  investorId : String
  type : String
  amount : ℚ
  date : String
  status : String
  description : String
  deriving DecidableEq

/-- FirestoreService.addTransaction: addDoc of the payload plus a createdAt
server stamp.  When the external store rejects the write (txWriteFails), the
operation raises its wrapped error and the collection is untouched. -/
def addTransaction (s : Store) (t : TxInput) : Store × Except String Unit :=
  if s.txWriteFails then (s, Except.error "Failed to record transaction")
  else
    ({ s with
        transactions := s.transactions ++
          [(freshId s.nextId,
            { investorId := t.investorId, type := some t.type,
              amount := some t.amount, date := some t.date,
              status := some t.status, description := some t.description,
              createdAt := some s.time, updatedAt := none })]
        nextId := s.nextId + 1
        time := s.time + 1 },
      Except.ok ())

/-- A field-wise update to a transaction document (the updates argument of
updateTransaction); a some field is written, a none field is left alone. -/
structure TxUpdate where
  type : Option String
  amount : Option ℚ
  date : Option String
  status : Option String
  description : Option String
  deriving DecidableEq

/-- Merge a field-wise update into a stored transaction document. -/
def applyTxUpdate (u : TxUpdate) (now : Nat) (t : TxDoc) : TxDoc :=
  { t with
      type := (u.type).elim t.type some
      amount := (u.amount).elim t.amount some
      date := (u.date).elim t.date some
      status := (u.status).elim t.status some
      description := (u.description).elim t.description some
      updatedAt := some now }

/-- FirestoreService.updateTransaction: updateDoc on an existing transaction
document with the given updates and a fresh updatedAt stamp. -/
def updateTransaction (s : Store) (id : DocId) (u : TxUpdate) :
    Store × Except String Unit :=
  match updateColl s.transactions id (applyTxUpdate u s.time) with
  | some txs => ({ s with transactions := txs, time := s.time + 1 }, Except.ok ())
  | none => (s, Except.error "Failed to update transaction")

/-- FirestoreService.addCreditToInvestor: read the investor profile, write
the increased balance, then append a Credit transaction record.  Each step
raises its wrapped error; a failure after the balance write leaves the new
balance in place. -/
def addCreditToInvestor (s : Store) (investorId : DocId) (amount : ℚ)
    (adminId : String) : Store × Except String Unit :=
  match getInvestorById s investorId with
  | none => (s, Except.error "Failed to add credit: Investor profile not found")
  | some inv =>
    let newBalance := inv.currentBalance + amount
    match updateInvestorBalance s investorId newBalance with
    | (s1, Except.error e) => (s1, Except.error ("Failed to add credit: " ++ e))
    | (s1, Except.ok _) =>
      match addTransaction s1
          { investorId := investorId, type := "Credit", amount := amount,
            date := s1.todayDate, status := "Completed",
            description := "Credit added by admin " ++ adminId } with
      | (s2, Except.error e) => (s2, Except.error ("Failed to add credit: " ++ e))
      | (s2, Except.ok _) => (s2, Except.ok ())

/-- The commission payload handed to addCommission by the approval path. -/
structure CommissionInput where
  investorId : String
  investorName : Option String
  withdrawalAmount : Option ℚ
  commissionRate : ℚ
  commissionAmount : Option ℚ
  date : String
  status : String
  withdrawalId : DocId
  deriving DecidableEq

/-- FirestoreService.addCommission: addDoc of the payload plus a createdAt
server stamp. -/
def addCommission (s : Store) (c : CommissionInput) : Store × Except String Unit :=
  ({ s with
      commissions := s.commissions ++
        [(freshId s.nextId,
          { investorId := c.investorId, investorName := c.investorName,
            withdrawalId := c.withdrawalId,
            withdrawalAmount := c.withdrawalAmount,
            commissionRate := c.commissionRate,
            commissionAmount := c.commissionAmount,
            date := c.date, status := c.status, createdAt := s.time })]
      nextId := s.nextId + 1
      time := s.time + 1 },
    Except.ok ())

/-- The document FirestoreService.addWithdrawalRequest writes on submission.
Note that no w8benStatus field is written (approvalDate is written as null,
embedded as none). -/
def submittedWithdrawalDoc (s : Store) (investorId : DocId)
    (investorName : String) (amount : ℚ) : WithdrawalDoc :=
  { investorId := investorId
    investorName := some investorName
    amount := some amount
    date := some s.todayDate
    status := some "Pending"
    approvalDate := none
    processedBy := none
    processedAt := none
    reason := none
    w8benStatus := none
    w8benApprovedAt := none
    w8benRejectionReason := none
    createdAt := some s.time
    updatedAt := none }

/-- FirestoreService.addWithdrawalRequest: setDoc under the supplied id when
one is given, addDoc under a fresh id otherwise. -/
def addWithdrawalRequest (s : Store) (investorId : DocId) (investorName : String)
    (amount : ℚ) (withdrawalId : Option DocId) : Store × Except String Unit :=
  let d := submittedWithdrawalDoc s investorId investorName amount
  match withdrawalId with
  | some wid =>
    ({ s with
        withdrawalRequests := setDocColl s.withdrawalRequests wid d
        time := s.time + 1 },
      Except.ok ())
  | none =>
    ({ s with
        withdrawalRequests := s.withdrawalRequests ++ [(freshId s.nextId, d)]
        nextId := s.nextId + 1
        time := s.time + 1 },
      Except.ok ())

/-- The withdrawal-request view produced by
FirestoreService.processWithdrawalDocs: raw fields with JavaScript truthiness
defaults applied (status defaults to Pending, w8benStatus to not_required). -/
structure WithdrawalView where
  id : DocId
  investorId : String
  investorName : String
  amount : ℚ
  date : String
  status : String
  approvalDate : Option Nat
  processedAt : Option Nat
  w8benStatus : String
  w8benApprovedAt : Option Nat
  deriving DecidableEq

/-- Field defaulting applied when a withdrawal-request document is read
back (processWithdrawalDocs), used by every read path for this collection. -/
def processWithdrawalDoc (today : String) (p : DocId × WithdrawalDoc) :
    WithdrawalView :=
  { id := p.1
    investorId := p.2.investorId
    investorName := jsOrStr p.2.investorName "Unknown Investor"
    amount := (p.2.amount).getD 0
    date := jsOrStr p.2.date today
    status := jsOrStr p.2.status "Pending"
    approvalDate := p.2.approvalDate
    processedAt := p.2.processedAt
    w8benStatus := jsOrStr p.2.w8benStatus "not_required"
    w8benApprovedAt := p.2.w8benApprovedAt }

/-- The update record FirestoreService.updateWithdrawalRequest writes: the
decision, processedBy, processedAt and reason (plus approvalDate when the
decision is Approved). -/
def processUpdate (now : Nat) (status processedBy : String)
    (reason : Option String) (w : WithdrawalDoc) : WithdrawalDoc :=
  let w1 := { w with
    status := some status
    processedBy := some processedBy
    processedAt := some now
    reason := jsOrNullStr reason
    updatedAt := some now }
  if status = "Approved" then { w1 with approvalDate := some now } else w1

/-- FirestoreService.updateWithdrawalRequest (see the doc comment above the
update record): record the decision, then derive the commission on
approval. -/
def updateWithdrawalRequest (s : Store) (id : DocId) (status : String)
    (processedBy : String) (reason : Option String) : Store × Except String Unit :=
  match updateColl s.withdrawalRequests id (processUpdate s.time status processedBy reason) with
  | none => (s, Except.error "Failed to process withdrawal request")
  | some wrs =>
    let s1 := { s with withdrawalRequests := wrs, time := s.time + 1 }
    if status = "Approved" then
      match findDoc s1.withdrawalRequests id with
      | some w =>
        addCommission s1
          { investorId := w.investorId
            investorName := w.investorName
            withdrawalAmount := w.amount
            commissionRate := 15
            commissionAmount := (w.amount).map (fun a => a * (15 / 100 : ℚ))
            date := s1.todayDate
            status := "Earned"
            withdrawalId := id }
      | none => (s1, Except.ok ())
    else (s1, Except.ok ())

/-- The update record FirestoreService.updateW8BenStatus writes: only the
W-8 BEN sub-status and its timestamp or rejection-reason field. -/
def w8benUpdate (now : Nat) (status : String) (reason : Option String)
    (w : WithdrawalDoc) : WithdrawalDoc :=
  if status = "approved" then
    { w with
        w8benStatus := some status
        updatedAt := some now
        w8benApprovedAt := some now }
  else
    { w with
        w8benStatus := some status
        updatedAt := some now
        w8benRejectionReason :=
          some (jsOrStr reason "Form rejected by compliance team") }

/-- FirestoreService.updateW8BenStatus: updateDoc of the W-8 BEN update
record; the primary status is never touched, and the processedBy argument is
accepted but never written. -/
def updateW8BenStatus (s : Store) (withdrawalId : DocId) (status : String)
    (processedBy : String) (reason : Option String) : Store × Except String Unit :=
  match updateColl s.withdrawalRequests withdrawalId (w8benUpdate s.time status reason) with
  | some wrs => ({ s with withdrawalRequests := wrs, time := s.time + 1 }, Except.ok ())
  | none => (s, Except.error "Failed to update W-8 BEN status")

/-- The admin-account lookup of the create branch: the first user (in
document-id order) whose role is admin and whose email is the fixed
designated address. -/
def adminLookup (s : Store) : Option (DocId × UserDoc) :=
  ((s.users.filter (fun p =>
      p.2.role == "admin" && p.2.email == some "crisdoraodxb@gmail.com")).mergeSort
    (fun p q => idLe p.1 q.1)).head?

/-- The conversation document the create branch writes: the admin identity
from the lookup or the fixed fallback, the participant pair in the
role-determined order, an empty last message and the current stamps. -/
def newConversationDoc (s : Store) (userId userName userRole : String) :
    ConversationDoc :=
  let adminId := match adminLookup s with
    | some p => p.1
    | none => "admin_fallback"
  let adminName := match adminLookup s with
    | some p => jsOrStr p.2.name "Cristian Dorao"
    | none => "Cristian Dorao"
  { participants :=
      if userRole = "admin" then [userId, adminId] else [adminId, userId]
    participantNames :=
      if userRole = "admin" then [userName, adminName] else [adminName, userName]
    participantRoles :=
      if userRole = "admin" then ["admin", "admin"] else ["admin", "investor"]
    lastMessage := ""
    lastMessageTime := s.time
    adminId := adminId
    affiliateId := userId
    createdAt := s.time
    updatedAt := s.time }

/-- MessageService.getOrCreateConversation: query the conversations whose
participants contain the user (the store enumerates an unordered equality
query in document-id order) and return the first match; otherwise create a
fresh conversation with the resolved or fallback admin identity. -/
def getOrCreateConversation (s : Store) (userId userName userRole : String) :
    Store × Except String DocId :=
  let found :=
    (s.conversations.filter (fun p => p.2.participants.contains userId)).mergeSort
      (fun p q => idLe p.1 q.1)
  match found.head? with
  | some p => (s, Except.ok p.1)
  | none =>
    let cid := freshId s.nextId
    ({ s with
        conversations :=
          s.conversations ++ [(cid, newConversationDoc s userId userName userRole)]
        nextId := s.nextId + 1
        time := s.time + 1 },
      Except.ok cid)

/-- The update record MessageService.updateConversationLastMessage writes:
the content truncated to the 100-character preview bound and a fresh
lastMessageTime. -/
def convLastMessageUpdate (now : Nat) (lastMessage : String)
    (c : ConversationDoc) : ConversationDoc :=
  { c with
      lastMessage := lastMessage.take 100
      lastMessageTime := now
      updatedAt := now }

/-- MessageService.updateConversationLastMessage: updateDoc of the
last-message projection; a failure here is swallowed (logged only), so the
operation never raises. -/
def updateConversationLastMessage (s : Store) (conversationId : DocId)
    (lastMessage : String) : Store :=
  match updateColl s.conversations conversationId
      (convLastMessageUpdate s.time lastMessage) with
  | some convs => { s with conversations := convs, time := s.time + 1 }
  | none => s

/-- MessageService.sendMessage: resolve the conversation (creating one when
no id is supplied), addDoc the immutable message row stamped with the server
clock, then update the owning conversation last-message projection. -/
def sendMessage (s : Store) (senderId senderName senderRole content : String)
    (conversationId : Option DocId) (replyTo : Option String)
    (priority : String) : Store × Except String DocId :=
  let step1 : Store × Except String DocId :=
    match conversationId with
    | some cid => (s, Except.ok cid)
    | none => getOrCreateConversation s senderId senderName senderRole
  match step1 with
  | (s1, Except.error e) => (s1, Except.error ("Failed to send message: " ++ e))
  | (s1, Except.ok cid) =>
    let mid := freshId s1.nextId
    let s2 := { s1 with
      affiliateMessages := s1.affiliateMessages ++
        [(mid,
          { senderId := senderId, senderName := senderName,
            senderRole := senderRole, content := content,
            timestamp := s1.time, conversationId := cid,
            replyTo := jsOrNullStr replyTo, priority := priority,
            status := "sent", createdAt := s1.time })]
      nextId := s1.nextId + 1
      time := s1.time + 1 }
    (updateConversationLastMessage s2 cid content, Except.ok mid)

/-- The transaction view produced by FirestoreService.processTransactionDocs:
raw fields with JavaScript truthiness defaults applied. -/
structure TxView where
  id : DocId
  investorId : String
  type : String
  amount : ℚ
  date : String
  status : String
  description : String
  deriving DecidableEq

/-- Field defaulting applied when a transaction document is read back. -/
def processTxDoc (today : String) (p : DocId × TxDoc) : TxView :=
  { id := p.1
    investorId := p.2.investorId
    type := jsOrStr p.2.type "Deposit"
    amount := (p.2.amount).getD 0
    date := jsOrStr p.2.date today
    status := jsOrStr p.2.status "Completed"
    description := jsOrStr p.2.description "" }

/-- The chronological key of a calendar-date string: the number formed by its
digits.  On the canonical YYYY-MM-DD strings the system writes, this key is
strictly monotone in the instant that the JavaScript Date constructor parses,
so comparing keys embeds the getTime comparison of the in-memory sort, and it
also embeds the store ordering of such date strings (lexicographic order on
canonical date strings coincides with chronological order). -/
def parseDateKey (s : String) : Nat :=
  (s.data.filter Char.isDigit).foldl (fun n c => n * 10 + (c.toNat - 48)) 0

/-- Date key of a stored transaction document (absent date reads as the empty
string, key 0). -/
def txDocDateKey (p : DocId × TxDoc) : Nat := parseDateKey ((p.2.date).getD "")

/-- Date key of a transaction view. -/
def txViewDateKey (v : TxView) : Nat := parseDateKey v.date

/-- The order in which the store serves the indexed query
orderBy date descending: descending by date with the documented tie-break on
the document id, also descending, as the store appends the id as the final
sort key in the direction of the last explicit ordering. -/
def leTxIndexed (p q : DocId × TxDoc) : Bool :=
  if txDocDateKey q < txDocDateKey p then true
  else if txDocDateKey p < txDocDateKey q then false
  else idLe q.1 p.1

/-- The comparator of the in-memory fallback sort over views, keeping a
before b when the comparator value time(b) minus time(a) is nonpositive. -/
def leTxViewDateDesc (a b : TxView) : Bool :=
  decide (txViewDateKey b ≤ txViewDateKey a)

/-- The equality filter of the transactions query: by investor when a filter
is given, everything otherwise. -/
def txMatches (inv : Option String) (p : DocId × TxDoc) : Bool :=
  match inv with
  | some i => p.2.investorId == i
  | none => true

/-- The indexed path of FirestoreService.getTransactions: the store serves
the filter ordered by date descending.  Documents that lack the orderBy
field are omitted by the store on this path; results are read back through
processTransactionDocs. -/
def fetchTransactionsIndexed (s : Store) (inv : Option String) : List TxView :=
  (((s.transactions.filter (txMatches inv)).filter
      (fun p => p.2.date.isSome)).mergeSort leTxIndexed).map
    (processTxDoc s.todayDate)

/-- The unordered fetch of the fallback path: the same equality filter with
no ordering; the store enumerates it in document-id order. -/
def fetchTransactionsUnordered (s : Store) (inv : Option String) :
    List (DocId × TxDoc) :=
  (s.transactions.filter (txMatches inv)).mergeSort (fun p q => idLe p.1 q.1)

/-- The fallback path of FirestoreService.getTransactions: unordered fetch,
read back through processTransactionDocs, then the stable in-memory sort
descending by parsed date. -/
def fetchTransactionsFallback (s : Store) (inv : Option String) : List TxView :=
  ((fetchTransactionsUnordered s inv).map (processTxDoc s.todayDate)).mergeSort
    leTxViewDateDesc

/-- FirestoreService.getTransactions: the indexed query when the composite
index is provisioned, the fallback otherwise. -/
def getTransactions (s : Store) (inv : Option String) : List TxView :=
  if s.txIndexAvailable then fetchTransactionsIndexed s inv
  else fetchTransactionsFallback s inv

/-- The live-subscription entry points of the system: the onSnapshot
wrappers of FirestoreService (investors, one investor, withdrawal requests,
transactions) and of MessageService (messages, conversations). -/
inductive SubscribeEntryPoint where
  | investors
  | investor
  | withdrawalRequests
  | transactions
  | messages
  | conversations
  deriving DecidableEq

/-- What a listener error handler delivers to the subscriber callback. -/
inductive ErrorDelivery where
  | emptyList
  | nullValue
  | noCallback
  deriving DecidableEq

/-- The effect of each onSnapshot error handler on the subscriber callback,
read off the handler bodies: subscribeToInvestors only logs and never
invokes its callback; subscribeToInvestor invokes its callback with null;
the four list-valued subscriptions invoke their callback with the empty
array.  No handler rethrows or propagates the error. -/
def onErrorDelivery : SubscribeEntryPoint → ErrorDelivery
  | .investors => .noCallback
  | .investor => .nullValue
  | .withdrawalRequests => .emptyList
  | .transactions => .emptyList
  | .messages => .emptyList
  | .conversations => .emptyList

/-- The mutating operations of the ledger and synchronization layer embedded
in this development, as one alphabet, used to quantify over every operation.
The remaining service operations write only to the users, supportCredentials,
commissionWithdrawals or profileChangeRequests collections and never write a
transaction document (deleteDocument can remove a document, which is not a
modification of a stored document). -/
inductive LedgerOp where
  | updBalance (id : DocId) (newBalance : ℚ)
  | addCredit (id : DocId) (amount : ℚ) (adminId : String)
  | addTx (t : TxInput)
  | updTx (id : DocId) (u : TxUpdate)
  | addWithdrawal (investorId : DocId) (investorName : String) (amount : ℚ)
      (wid : Option DocId)
  | procWithdrawal (id : DocId) (status processedBy : String)
      (reason : Option String)
  | setW8Ben (id : DocId) (status processedBy : String) (reason : Option String)
  | addComm (c : CommissionInput)
  | resolveConversation (userId userName userRole : String)
  | updConvLast (cid : DocId) (lastMessage : String)
  | sendMsg (senderId senderName senderRole content : String)
      (cid : Option DocId) (replyTo : Option String) (priority : String)

/-- Run one operation against the store, keeping the store it leaves behind
(whether or not the operation reported an error). -/
def applyOp (s : Store) : LedgerOp → Store
  | .updBalance id b => (updateInvestorBalance s id b).1
  | .addCredit id a adm => (addCreditToInvestor s id a adm).1
  | .addTx t => (addTransaction s t).1
  | .updTx id u => (updateTransaction s id u).1
  | .addWithdrawal i n a w => (addWithdrawalRequest s i n a w).1
  | .procWithdrawal id st pb r => (updateWithdrawalRequest s id st pb r).1
  | .setW8Ben id st pb r => (updateW8BenStatus s id st pb r).1
  | .addComm c => (addCommission s c).1
  | .resolveConversation u n r => (getOrCreateConversation s u n r).1
  | .updConvLast cid m => updateConversationLastMessage s cid m
  | .sendMsg a b c d e f g => (sendMessage s a b c d e f g).1

theorem findDoc_append {α : Type} (l r : List (DocId × α)) (id : DocId) :
    findDoc (l ++ r) id =
      match findDoc l id with
      | some a => some a
      | none => findDoc r id := by
  induction l with
  | nil => simp [findDoc]
  | cons p rest ih =>
    by_cases hp : p.1 = id
    · simp [findDoc, hp]
    · simp [findDoc, hp, ih]

theorem updateColl_spec {α : Type} (f : α → α) :
    ∀ (coll : List (DocId × α)) (id : DocId) (a : α),
      findDoc coll id = some a →
      ∃ coll2, updateColl coll id f = some coll2 ∧
        findDoc coll2 id = some (f a) ∧
        (∀ id2, id2 ≠ id → findDoc coll2 id2 = findDoc coll id2) := by
  intro coll
  induction coll with
  | nil => intro id a h; simp [findDoc] at h
  | cons p rest ih =>
    intro id a h
    by_cases hp : p.1 = id
    · refine ⟨(p.1, f p.2) :: rest, ?_, ?_, ?_⟩
      · simp [updateColl, hp]
      · simp [findDoc, hp] at h
        simp [findDoc, hp, h]
      · intro id2 hne
        have hp2 : ¬ p.1 = id2 := by rw [hp]; exact fun hx => hne hx.symm
        simp [findDoc, hp2]
    · simp only [findDoc, if_neg hp] at h
      obtain ⟨rest2, h1, h2, h3⟩ := ih id a h
      refine ⟨p :: rest2, ?_, ?_, ?_⟩
      · simp [updateColl, hp, h1]
      · simp [findDoc, hp, h2]
      · intro id2 hne
        by_cases hq : p.1 = id2
        · simp [findDoc, hq]
        · simp [findDoc, hq, h3 id2 hne]

/-- An investor user document used by the concrete witnesses. -/
def exampleUser : UserDoc :=
  { role := "investor"
    name := some "Alice"
    email := some "alice@example.com"
    currentBalance := some 500
    accountStatus := some "Active"
    isActive := some true
    updatedAt := some 3 }

/-- A pending withdrawal request document used by the concrete witnesses. -/
def pendingRequest : WithdrawalDoc :=
  { investorId := "inv1"
    investorName := some "Alice"
    amount := some 1000
    date := some "2024-05-01"
    status := some "Pending"
    approvalDate := none
    processedBy := none
    processedAt := none
    reason := none
    w8benStatus := none
    w8benApprovedAt := none
    w8benRejectionReason := none
    createdAt := some 5
    updatedAt := none }

/-- A base store used by the concrete witnesses: one investor and one
pending withdrawal request. -/
def baseStore : Store :=
  { users := [("inv1", exampleUser)]
    transactions := []
    withdrawalRequests := [("w1", pendingRequest)]
    commissions := []
    conversations := []
    affiliateMessages := []
    time := 10
    nextId := 0
    todayDate := "2024-05-05"
    txIndexAvailable := true
    txWriteFails := false }

/-- C3 counterexample: the claim that every subscribe entry point delivers an
empty sequence to its callback on a listener error fails at
subscribeToInvestors, whose error handler only logs and performs no callback
invocation at all. -/
theorem subscribeError_allEmpty_counterexample :
    onErrorDelivery SubscribeEntryPoint.investors = ErrorDelivery.noCallback ∧
    ¬ (∀ e, onErrorDelivery e = ErrorDelivery.emptyList) := by
  refine ⟨rfl, fun h => ?_⟩
  have := h SubscribeEntryPoint.investors
  simp [onErrorDelivery] at this

/-- C3 amended: every subscribe entry point swallows listener errors (no
handler propagates); the list-valued entry points other than
subscribeToInvestors deliver one empty-sequence callback invocation, the
single-investor subscription delivers null, and subscribeToInvestors
performs no callback invocation on error. -/
theorem subscribeError_delivery_characterization :
    (∀ e, e ≠ SubscribeEntryPoint.investors → e ≠ SubscribeEntryPoint.investor →
      onErrorDelivery e = ErrorDelivery.emptyList) ∧
    onErrorDelivery SubscribeEntryPoint.investor = ErrorDelivery.nullValue ∧
    onErrorDelivery SubscribeEntryPoint.investors = ErrorDelivery.noCallback := by
  refine ⟨fun e h1 h2 => ?_, rfl, rfl⟩
  cases e <;> simp_all [onErrorDelivery]

/-- C3 witness: the transactions subscription delivers the empty sequence on
a listener error. -/
theorem subscribeError_delivery_witness :
    onErrorDelivery SubscribeEntryPoint.transactions = ErrorDelivery.emptyList :=
  subscribeError_delivery_characterization.1 SubscribeEntryPoint.transactions
    (by decide) (by decide)

/-- C10: submission writes no w8benStatus field (and status Pending); every
read path substitutes not_required for an absent w8benStatus and Pending for
an absent status, so a freshly submitted request is reported with status
Pending and w8benStatus not_required. -/
theorem submit_w8ben_defaulting (s : Store) (investorId : DocId)
    (investorName : String) (amount : ℚ) :
    (submittedWithdrawalDoc s investorId investorName amount).w8benStatus = none ∧
    (submittedWithdrawalDoc s investorId investorName amount).status = some "Pending" ∧
    (addWithdrawalRequest s investorId investorName amount none).2 = Except.ok () ∧
    (addWithdrawalRequest s investorId investorName amount none).1.withdrawalRequests =
      s.withdrawalRequests ++
        [(freshId s.nextId, submittedWithdrawalDoc s investorId investorName amount)] ∧
    (∀ today newId,
      (processWithdrawalDoc today
          (newId, submittedWithdrawalDoc s investorId investorName amount)).status =
        "Pending" ∧
      (processWithdrawalDoc today
          (newId, submittedWithdrawalDoc s investorId investorName amount)).w8benStatus =
        "not_required") ∧
    (∀ today (p : DocId × WithdrawalDoc), p.2.w8benStatus = none →
      (processWithdrawalDoc today p).w8benStatus = "not_required") ∧
    (∀ today (p : DocId × WithdrawalDoc), p.2.status = none →
      (processWithdrawalDoc today p).status = "Pending") := by
  refine ⟨rfl, rfl, rfl, rfl, ?_, ?_, ?_⟩
  · intro today newId
    exact ⟨rfl, rfl⟩
  · intro today p h
    simp [processWithdrawalDoc, h, jsOrStr]
  · intro today p h
    simp [processWithdrawalDoc, h, jsOrStr]

/-- C10 witness: the defaulting read back of a concrete freshly submitted
request reports status Pending and w8benStatus not_required. -/
theorem submit_w8ben_defaulting_witness :
    (processWithdrawalDoc "2024-05-05"
        ("wx", submittedWithdrawalDoc baseStore "inv1" "Alice" 250)).w8benStatus =
      "not_required" ∧
    (processWithdrawalDoc "2024-05-05"
        ("wx", submittedWithdrawalDoc baseStore "inv1" "Alice" 250)).status =
      "Pending" :=
  ⟨(submit_w8ben_defaulting baseStore "inv1" "Alice" 250).2.2.2.2.2.1 "2024-05-05"
      ("wx", submittedWithdrawalDoc baseStore "inv1" "Alice" 250) rfl,
    ((submit_w8ben_defaulting baseStore "inv1" "Alice" 250).2.2.2.2.1 "2024-05-05" "wx").1⟩

theorem rate_times_thousand : (1000 : ℚ) * (15 / 100) = 150 := by norm_num

/-- C8: processing a withdrawal request with decision Rejected never creates
a commission record and performs no balance reversal (users and transactions
are untouched); the terminal status written onto the request is the only
record of the rejection. -/
theorem reject_creates_no_commission (s : Store) (id : DocId) (pb : String)
    (r : Option String) :
    (updateWithdrawalRequest s id "Rejected" pb r).1.commissions = s.commissions ∧
    (updateWithdrawalRequest s id "Rejected" pb r).1.users = s.users ∧
    (updateWithdrawalRequest s id "Rejected" pb r).1.transactions = s.transactions ∧
    (∀ w, findDoc s.withdrawalRequests id = some w →
      findDoc (updateWithdrawalRequest s id "Rejected" pb r).1.withdrawalRequests id =
        some { w with
          status := some "Rejected"
          processedBy := some pb
          processedAt := some s.time
          reason := jsOrNullStr r
          updatedAt := some s.time }) := by
  cases h : updateColl s.withdrawalRequests id (processUpdate s.time "Rejected" pb r) with
  | none =>
    refine ⟨by simp [updateWithdrawalRequest, h], by simp [updateWithdrawalRequest, h],
      by simp [updateWithdrawalRequest, h], ?_⟩
    intro w hw
    obtain ⟨c2, hc2, -, -⟩ :=
      updateColl_spec (processUpdate s.time "Rejected" pb r) _ id w hw
    rw [h] at hc2
    cases hc2
  | some wrs =>
    refine ⟨by simp [updateWithdrawalRequest, h], by simp [updateWithdrawalRequest, h],
      by simp [updateWithdrawalRequest, h], ?_⟩
    intro w hw
    obtain ⟨c2, hc2, hfind, -⟩ :=
      updateColl_spec (processUpdate s.time "Rejected" pb r) _ id w hw
    rw [h] at hc2
    injection hc2 with hc2
    subst hc2
    simp only [updateWithdrawalRequest, h]
    have : processUpdate s.time "Rejected" pb r w =
        { w with
          status := some "Rejected"
          processedBy := some pb
          processedAt := some s.time
          reason := jsOrNullStr r
          updatedAt := some s.time } := by
      simp [processUpdate]
    simp only [this] at hfind
    simpa using hfind

/-- C8 witness: rejecting the concrete pending request leaves the commissions
collection empty and stamps only the request itself. -/
theorem reject_creates_no_commission_witness :
    (updateWithdrawalRequest baseStore "w1" "Rejected" "admin1" none).1.commissions = [] ∧
    findDoc (updateWithdrawalRequest baseStore "w1" "Rejected" "admin1"
        none).1.withdrawalRequests "w1" =
      some { pendingRequest with
        status := some "Rejected"
        processedBy := some "admin1"
        processedAt := some 10
        reason := none
        updatedAt := some 10 } :=
  ⟨(reject_creates_no_commission baseStore "w1" "admin1" none).1.trans rfl,
    (reject_creates_no_commission baseStore "w1" "admin1" none).2.2.2 pendingRequest rfl⟩

/-- The store after approving the concrete pending request once. -/
def approvedOnce : Store :=
  (updateWithdrawalRequest baseStore "w1" "Approved" "admin1" none).1

/-- The store after approving the same request a second time. -/
def approvedTwice : Store :=
  (updateWithdrawalRequest approvedOnce "w1" "Approved" "admin1" none).1

/-- C1 counterexample: processing with decision Approved is not idempotent in
effect-count: approving the same request twice leaves two commission records
for it, not exactly one. -/
theorem approve_idempotent_counterexample :
    (approvedTwice.commissions.filter
      (fun p => p.2.withdrawalId == "w1")).length = 2 ∧ (2 : Nat) ≠ 1 := by
  constructor
  · decide
  · decide

/-- C1 amended: one process call with decision Approved synchronously
appends exactly one commission record for the request, with commissionRate
15 and commissionAmount equal to the request amount times 0.15, and stamps
the approval onto the request; the operation is not idempotent in
effect-count, since each repeated Approved call appends another commission
record. -/
theorem approve_creates_one_commission (s : Store) (id : DocId) (pb : String)
    (r : Option String) (w : WithdrawalDoc)
    (hw : findDoc s.withdrawalRequests id = some w) :
    (updateWithdrawalRequest s id "Approved" pb r).2 = Except.ok () ∧
    (updateWithdrawalRequest s id "Approved" pb r).1.commissions =
      s.commissions ++
        [(freshId s.nextId,
          { investorId := w.investorId
            investorName := w.investorName
            withdrawalId := id
            withdrawalAmount := w.amount
            commissionRate := 15
            commissionAmount := (w.amount).map (fun a => a * (15 / 100 : ℚ))
            date := s.todayDate
            status := "Earned"
            createdAt := s.time + 1 })] ∧
    findDoc (updateWithdrawalRequest s id "Approved" pb r).1.withdrawalRequests id =
      some { w with
        status := some "Approved"
        processedBy := some pb
        processedAt := some s.time
        reason := jsOrNullStr r
        updatedAt := some s.time
        approvalDate := some s.time } := by
  obtain ⟨wrs, h, hfind, -⟩ :=
    updateColl_spec (processUpdate s.time "Approved" pb r) _ id w hw
  have hpu : processUpdate s.time "Approved" pb r w =
      { w with
        status := some "Approved"
        processedBy := some pb
        processedAt := some s.time
        reason := jsOrNullStr r
        updatedAt := some s.time
        approvalDate := some s.time } := by
    simp [processUpdate]
  rw [hpu] at hfind
  refine ⟨?_, ?_, ?_⟩ <;>
    simp [updateWithdrawalRequest, h, hfind, addCommission]

/-- C1 witness: approving the concrete request of amount 1000 appends one
commission of amount 150 at rate 15. -/
theorem approve_creates_one_commission_witness :
    (updateWithdrawalRequest baseStore "w1" "Approved" "admin1" none).2 =
      Except.ok () ∧
    (updateWithdrawalRequest baseStore "w1" "Approved" "admin1"
        none).1.commissions.map (fun p => p.2.commissionAmount) = [some 150] ∧
    (updateWithdrawalRequest baseStore "w1" "Approved" "admin1"
        none).1.commissions.map (fun p => p.2.commissionRate) = [15] := by
  have h := approve_creates_one_commission baseStore "w1" "admin1" none
    pendingRequest rfl
  refine ⟨h.1, ?_, ?_⟩
  · rw [h.2.1]
    simp [baseStore, pendingRequest, rate_times_thousand]
  · rw [h.2.1]
    simp [baseStore]

theorem fiveHundred_plus : (500 : ℚ) + 250 = 750 := by norm_num

/-- C5: for an existing investor with balance B and no concurrent writer,
credit(id, a) succeeds, a subsequent getBalance(id) yields B + a, and the
operation appends exactly one Credit transaction record after writing the
balance. -/
theorem credit_then_getBalance (s : Store) (id : DocId) (a : ℚ) (adm : String)
    (u : UserDoc) (hu : findDoc s.users id = some u) (hrole : u.role = "investor")
    (hok : s.txWriteFails = false) :
    (addCreditToInvestor s id a adm).2 = Except.ok () ∧
    getBalance (addCreditToInvestor s id a adm).1 id =
      Except.ok ((u.currentBalance).getD 0 + a) ∧
    (addCreditToInvestor s id a adm).1.transactions =
      s.transactions ++
        [(freshId s.nextId,
          { investorId := id
            type := some "Credit"
            amount := some a
            date := some s.todayDate
            status := some "Completed"
            description := some ("Credit added by admin " ++ adm)
            createdAt := some (s.time + 1)
            updatedAt := none })] := by
  obtain ⟨users2, hupd, hfindu, -⟩ :=
    updateColl_spec (balanceUpdate s.time ((u.currentBalance).getD 0 + a))
      s.users id u hu
  refine ⟨?_, ?_, ?_⟩ <;>
    simp [addCreditToInvestor, getInvestorById, hu, hrole, viewInvestor,
      updateInvestorBalance, hupd, addTransaction, hok, getBalance, hfindu,
      balanceUpdate]

/-- C5 witness: crediting 250 to the concrete investor with balance 500
yields balance 750 and one Credit transaction of 250. -/
theorem credit_then_getBalance_witness :
    (addCreditToInvestor baseStore "inv1" 250 "admin1").2 = Except.ok () ∧
    getBalance (addCreditToInvestor baseStore "inv1" 250 "admin1").1 "inv1" =
      Except.ok 750 ∧
    (addCreditToInvestor baseStore "inv1" 250 "admin1").1.transactions.map
      (fun p => (p.2.type, p.2.amount)) = [(some "Credit", some 250)] := by
  have h := credit_then_getBalance baseStore "inv1" 250 "admin1" exampleUser rfl rfl rfl
  refine ⟨h.1, ?_, ?_⟩
  · rw [h.2.1]
    simp [exampleUser, fiveHundred_plus]
  · rw [h.2.2]
    simp [baseStore]

/-- C9: credit is not atomic on error: when the transaction append fails
after the balance write succeeded, the operation raises the wrapped error,
yet the investor keeps the credited balance and no transaction record
exists for the change. -/
theorem credit_balance_without_record_on_failure (s : Store) (id : DocId)
    (a : ℚ) (adm : String) (u : UserDoc) (hu : findDoc s.users id = some u)
    (hrole : u.role = "investor") (hfail : s.txWriteFails = true) :
    (addCreditToInvestor s id a adm).2 =
      Except.error "Failed to add credit: Failed to record transaction" ∧
    getBalance (addCreditToInvestor s id a adm).1 id =
      Except.ok ((u.currentBalance).getD 0 + a) ∧
    (addCreditToInvestor s id a adm).1.transactions = s.transactions := by
  obtain ⟨users2, hupd, hfindu, -⟩ :=
    updateColl_spec (balanceUpdate s.time ((u.currentBalance).getD 0 + a))
      s.users id u hu
  refine ⟨?_, ?_, ?_⟩ <;>
    simp [addCreditToInvestor, getInvestorById, hu, hrole, viewInvestor,
      updateInvestorBalance, hupd, addTransaction, hfail, getBalance, hfindu,
      balanceUpdate]

/-- A copy of the base store whose external store rejects writes to the
transactions collection. -/
def failingStore : Store := { baseStore with txWriteFails := true }

/-- C9 witness: with the failing store, crediting 250 raises, the balance is
nevertheless 750, and the transaction log is unchanged. -/
theorem credit_balance_without_record_witness :
    (addCreditToInvestor failingStore "inv1" 250 "admin1").2 =
      Except.error "Failed to add credit: Failed to record transaction" ∧
    getBalance (addCreditToInvestor failingStore "inv1" 250 "admin1").1 "inv1" =
      Except.ok 750 ∧
    (addCreditToInvestor failingStore "inv1" 250 "admin1").1.transactions = [] := by
  have h := credit_balance_without_record_on_failure failingStore "inv1" 250 "admin1"
    exampleUser rfl rfl rfl
  refine ⟨h.1, ?_, h.2.2.trans rfl⟩
  rw [h.2.1]
  simp [exampleUser, fiveHundred_plus]

/-- A seed transaction document used by the concrete witnesses. -/
def exampleTx : TxDoc :=
  { investorId := "inv1"
    type := some "Deposit"
    amount := some 100
    date := some "2024-04-01"
    status := some "Completed"
    description := some "seed deposit"
    createdAt := some 1
    updatedAt := none }

/-- The base store with one stored transaction. -/
def txStore : Store := { baseStore with transactions := [("t1", exampleTx)] }

theorem getOrCreateConversation_transactions (s : Store) (u n r : String) :
    (getOrCreateConversation s u n r).1.transactions = s.transactions := by
  simp only [getOrCreateConversation]
  split <;> rfl

theorem updateConversationLastMessage_transactions (s : Store) (cid : DocId)
    (m : String) :
    (updateConversationLastMessage s cid m).transactions = s.transactions := by
  simp only [updateConversationLastMessage]
  split <;> rfl

/-- C2 counterexample: the system exposes updateTransaction, which modifies
an existing transaction document after its creation: the stored status of a
seeded transaction changes from Completed to Cancelled. -/
theorem transaction_immutable_counterexample :
    (findDoc txStore.transactions "t1").map TxDoc.status =
      some (some "Completed") ∧
    (findDoc (applyOp txStore
        (LedgerOp.updTx "t1"
          { type := none, amount := none, date := none,
            status := some "Cancelled", description := none })).transactions
        "t1").map TxDoc.status = some (some "Cancelled") := by
  constructor
  · decide
  · decide

/-- C2 amended: a stored transaction document is preserved by every embedded
mutating operation of the system except updateTransaction; the ledger and
workflow flows only ever append new transaction records. -/
theorem transactions_preserved_except_updateTransaction (s : Store)
    (op : LedgerOp) (hne : ∀ id u, op ≠ LedgerOp.updTx id u) :
    ∀ pr ∈ s.transactions, pr ∈ (applyOp s op).transactions := by
  intro pr hpr
  cases op with
  | updTx id u => exact absurd rfl (hne id u)
  | updBalance id b =>
    simp only [applyOp, updateInvestorBalance]
    split <;> simp [hpr]
  | addCredit id a adm =>
    simp only [applyOp, addCreditToInvestor]
    cases hg : getInvestorById s id with
    | none => exact hpr
    | some inv =>
      cases hu2 : updateColl s.users id (balanceUpdate s.time (inv.currentBalance + a)) with
      | none => simp [updateInvestorBalance, hu2, hpr]
      | some users2 =>
        by_cases hf : s.txWriteFails = true <;>
          simp [updateInvestorBalance, hu2, addTransaction, hf, hpr]
  | addTx t =>
    simp only [applyOp, addTransaction]
    split <;> simp [hpr]
  | addWithdrawal i n a w =>
    cases w <;> simp [applyOp, addWithdrawalRequest, hpr]
  | procWithdrawal id st pb r =>
    simp only [applyOp, updateWithdrawalRequest, addCommission]
    split
    · exact hpr
    · split
      · split <;> simp [hpr]
      · simp [hpr]
  | setW8Ben id st pb r =>
    simp only [applyOp, updateW8BenStatus]
    split <;> simp [hpr]
  | addComm c =>
    simp [applyOp, addCommission, hpr]
  | resolveConversation u n r =>
    simp only [applyOp, getOrCreateConversation]
    split <;> simp [hpr]
  | updConvLast cid m =>
    simp only [applyOp, updateConversationLastMessage]
    split <;> simp [hpr]
  | sendMsg a b c d e f g =>
    simp only [applyOp, sendMessage]
    cases e with
    | some cid =>
      simp only []
      rw [updateConversationLastMessage_transactions]
      exact hpr
    | none =>
      rcases hg : getOrCreateConversation s a b c with ⟨s1, r1⟩
      have hs1 : s1.transactions = s.transactions := by
        have := getOrCreateConversation_transactions s a b c
        rw [hg] at this
        exact this
      cases r1 with
      | error err => simp [hg, hs1, hpr]
      | ok cid =>
        simp only [hg]
        rw [updateConversationLastMessage_transactions]
        simp [hs1, hpr]

/-- C2 amended witness: the seeded transaction survives an append by
addTransaction. -/
theorem transactions_preserved_witness :
    ("t1", exampleTx) ∈ (applyOp txStore
      (LedgerOp.addTx
        { investorId := "inv1", type := "Deposit", amount := 50,
          date := "2024-05-05", status := "Completed",
          description := "second deposit" })).transactions :=
  transactions_preserved_except_updateTransaction txStore _
    (by intro id u; simp) ("t1", exampleTx) (by simp [txStore])

theorem newConversationDoc_contains (s : Store) (userId userName userRole : String) :
    (newConversationDoc s userId userName userRole).participants.contains userId =
      true := by
  simp only [newConversationDoc]
  split <;> simp

/-- C6: under the data-model invariant that at most one conversation
contains the user, resolving twice in sequence returns the same conversation
id both times, and exactly one conversation document for the pair exists
afterwards. -/
theorem resolve_twice_idempotent (s : Store) (userId userName userRole : String)
    (h : (s.conversations.filter
      (fun p => p.2.participants.contains userId)).length ≤ 1) :
    ∃ cid,
      (getOrCreateConversation s userId userName userRole).2 = Except.ok cid ∧
      (getOrCreateConversation
        (getOrCreateConversation s userId userName userRole).1 userId userName
        userRole).2 = Except.ok cid ∧
      ((getOrCreateConversation
          (getOrCreateConversation s userId userName userRole).1 userId userName
          userRole).1.conversations.filter
        (fun p => p.2.participants.contains userId)).length = 1 := by
  cases hfilter : s.conversations.filter
      (fun p => p.2.participants.contains userId) with
  | nil =>
    have h1 : getOrCreateConversation s userId userName userRole =
        ({ s with
            conversations := s.conversations ++
              [(freshId s.nextId, newConversationDoc s userId userName userRole)]
            nextId := s.nextId + 1
            time := s.time + 1 },
          Except.ok (freshId s.nextId)) := by
      simp only [getOrCreateConversation]
      rw [hfilter]
      simp only [List.mergeSort_nil, List.head?_nil]
    have hfilter1 :
        (s.conversations ++
          [(freshId s.nextId, newConversationDoc s userId userName userRole)]).filter
            (fun p => p.2.participants.contains userId) =
          [(freshId s.nextId, newConversationDoc s userId userName userRole)] := by
      rw [List.filter_append, hfilter]
      simp only [List.nil_append, List.filter_cons,
        newConversationDoc_contains, List.filter_nil, if_true]
    have h2 : getOrCreateConversation
        ({ s with
            conversations := s.conversations ++
              [(freshId s.nextId, newConversationDoc s userId userName userRole)]
            nextId := s.nextId + 1
            time := s.time + 1 }) userId userName userRole =
        ({ s with
            conversations := s.conversations ++
              [(freshId s.nextId, newConversationDoc s userId userName userRole)]
            nextId := s.nextId + 1
            time := s.time + 1 },
          Except.ok (freshId s.nextId)) := by
      simp only [getOrCreateConversation]
      rw [hfilter1]
      simp only [List.mergeSort_singleton, List.head?_cons]
    refine ⟨freshId s.nextId, ?_, ?_, ?_⟩
    · rw [h1]
    · rw [h1, h2]
    · rw [h1, h2]
      simp only []
      rw [hfilter1]
      rfl
  | cons x tail =>
    have htail : tail = [] := by
      rw [hfilter] at h
      simpa using h
    subst htail
    have h1 : getOrCreateConversation s userId userName userRole =
        (s, Except.ok x.1) := by
      simp only [getOrCreateConversation]
      rw [hfilter]
      simp only [List.mergeSort_singleton, List.head?_cons]
    refine ⟨x.1, ?_, ?_, ?_⟩
    · rw [h1]
    · rw [h1, h1]
    · rw [h1, h1]
      simp only []
      rw [hfilter]
      rfl

/-- C6 witness: resolving twice from the base store (no conversations)
returns one stable fresh id and leaves exactly one conversation for the
pair. -/
theorem resolve_twice_idempotent_witness :
    ∃ cid,
      (getOrCreateConversation baseStore "userA" "Alice" "affiliate").2 =
        Except.ok cid ∧
      (getOrCreateConversation
        (getOrCreateConversation baseStore "userA" "Alice" "affiliate").1 "userA"
        "Alice" "affiliate").2 = Except.ok cid ∧
      ((getOrCreateConversation
          (getOrCreateConversation baseStore "userA" "Alice" "affiliate").1 "userA"
          "Alice" "affiliate").1.conversations.filter
        (fun p => p.2.participants.contains "userA")).length = 1 :=
  resolve_twice_idempotent baseStore "userA" "Alice" "affiliate" (by decide)

/-- A conversation document used by the concrete witnesses. -/
def convDoc : ConversationDoc :=
  { participants := ["userA", "admin1"]
    participantNames := ["Alice", "Cristian Dorao"]
    participantRoles := ["admin", "investor"]
    lastMessage := ""
    lastMessageTime := 2
    adminId := "admin1"
    affiliateId := "userA"
    createdAt := 2
    updatedAt := 2 }

/-- The base store with one stored conversation. -/
def convStore : Store := { baseStore with conversations := [("c1", convDoc)] }

/-- C7: appending a message to an existing conversation leaves the owning
conversation lastMessage equal to the new content truncated to the
100-character preview bound (the content itself when within the bound) and
moves lastMessageTime strictly forward. -/
theorem updateConversationLastMessage_spec (s : Store) (cid : DocId)
    (m : String) (c : ConversationDoc)
    (hc : findDoc s.conversations cid = some c) :
    ∃ convs2,
      updateConversationLastMessage s cid m =
        { s with conversations := convs2, time := s.time + 1 } ∧
      findDoc convs2 cid = some (convLastMessageUpdate s.time m c) := by
  obtain ⟨convs2, hupd, hfind, -⟩ :=
    updateColl_spec (convLastMessageUpdate s.time m) s.conversations cid c hc
  exact ⟨convs2, by simp [updateConversationLastMessage, hupd], hfind⟩

set_option maxRecDepth 4000 in
set_option maxHeartbeats 1000000 in
/-- C7: appending a message to an existing conversation leaves the owning
conversation lastMessage equal to the new content truncated to the
100-character preview bound (the content itself when within the bound) and
moves lastMessageTime strictly forward. -/
theorem append_updates_lastMessage (s : Store) (cid : DocId)
    (senderId senderName senderRole content : String) (replyTo : Option String)
    (priority : String) (c : ConversationDoc)
    (hc : findDoc s.conversations cid = some c)
    (ht : c.lastMessageTime < s.time) :
    ∃ c2,
      findDoc (sendMessage s senderId senderName senderRole content (some cid)
          replyTo priority).1.conversations cid = some c2 ∧
      c2.lastMessage = content.take 100 ∧
      c.lastMessageTime < c2.lastMessageTime ∧
      (sendMessage s senderId senderName senderRole content (some cid) replyTo
        priority).2 = Except.ok (freshId s.nextId) := by
  have hsend : sendMessage s senderId senderName senderRole content (some cid)
      replyTo priority =
    (updateConversationLastMessage
      { s with
          affiliateMessages := s.affiliateMessages ++
            [(freshId s.nextId,
              { senderId := senderId, senderName := senderName,
                senderRole := senderRole, content := content,
                timestamp := s.time, conversationId := cid,
                replyTo := jsOrNullStr replyTo, priority := priority,
                status := "sent", createdAt := s.time })]
          nextId := s.nextId + 1
          time := s.time + 1 } cid content,
      Except.ok (freshId s.nextId)) := rfl
  obtain ⟨convs2, heq, hfind⟩ :=
    updateConversationLastMessage_spec
      { s with
          affiliateMessages := s.affiliateMessages ++
            [(freshId s.nextId,
              { senderId := senderId, senderName := senderName,
                senderRole := senderRole, content := content,
                timestamp := s.time, conversationId := cid,
                replyTo := jsOrNullStr replyTo, priority := priority,
                status := "sent", createdAt := s.time })]
          nextId := s.nextId + 1
          time := s.time + 1 } cid content c hc
  refine ⟨convLastMessageUpdate (s.time + 1) content c, ?_, ?_, ?_, ?_⟩
  · rw [hsend]
    dsimp only
    rw [heq]
    exact hfind
  · simp [convLastMessageUpdate]
  · simp only [convLastMessageUpdate]
    omega
  · rw [hsend]

/-- C7 witness: sending a concrete message into the stored conversation sets
lastMessage to the content and moves lastMessageTime forward. -/
theorem append_updates_lastMessage_witness :
    ∃ c2,
      findDoc (sendMessage convStore "userA" "Alice" "affiliate" "Hello there"
          (some "c1") none "medium").1.conversations "c1" = some c2 ∧
      c2.lastMessage = ("Hello there" : String).take 100 ∧
      convDoc.lastMessageTime < c2.lastMessageTime ∧
      (sendMessage convStore "userA" "Alice" "affiliate" "Hello there"
        (some "c1") none "medium").2 = Except.ok (freshId convStore.nextId) :=
  append_updates_lastMessage convStore "c1" "userA" "Alice" "affiliate"
    "Hello there" none "medium" convDoc (by decide) (by decide)

theorem lexLeChars_total : ∀ (as bs : List Char),
    lexLeChars as bs = true ∨ lexLeChars bs as = true := by
  intro as
  induction as with
  | nil => intro bs; left; rfl
  | cons a as ih =>
    intro bs
    cases bs with
    | nil => right; rfl
    | cons b bs =>
      by_cases hab : a.toNat < b.toNat
      · left; simp [lexLeChars, hab]
      · by_cases hba : b.toNat < a.toNat
        · right; simp [lexLeChars, hba]
        · rcases ih bs with h | h
          · left; simp [lexLeChars, hab, hba, h]
          · right; simp [lexLeChars, hab, hba, h]

theorem lexLeChars_trans : ∀ (as bs cs : List Char),
    lexLeChars as bs = true → lexLeChars bs cs = true →
      lexLeChars as cs = true := by
  intro as
  induction as with
  | nil => intro bs cs _ _; rfl
  | cons a as ih =>
    intro bs cs h1 h2
    cases bs with
    | nil => simp [lexLeChars] at h1
    | cons b bs =>
      cases cs with
      | nil => simp [lexLeChars] at h2
      | cons c cs =>
        simp only [lexLeChars] at h1 h2 ⊢
        by_cases hab : a.toNat < b.toNat
        · by_cases hbc : b.toNat < c.toNat
          · have hac : a.toNat < c.toNat := Nat.lt_trans hab hbc
            simp [hac]
          · by_cases hcb : c.toNat < b.toNat
            · simp [hbc, hcb] at h2
            · have hbc2 : b.toNat = c.toNat := Nat.le_antisymm
                (Nat.le_of_not_lt hcb) (Nat.le_of_not_lt hbc)
              have hac : a.toNat < c.toNat := hbc2 ▸ hab
              simp [hac]
        · by_cases hba : b.toNat < a.toNat
          · simp [hab, hba] at h1
          · have hab2 : a.toNat = b.toNat := Nat.le_antisymm
              (Nat.le_of_not_lt hba) (Nat.le_of_not_lt hab)
            by_cases hbc : b.toNat < c.toNat
            · have hac : a.toNat < c.toNat := hab2 ▸ hbc
              simp [hac]
            · by_cases hcb : c.toNat < b.toNat
              · simp [hbc, hcb] at h2
              · have hbc2 : b.toNat = c.toNat := Nat.le_antisymm
                  (Nat.le_of_not_lt hcb) (Nat.le_of_not_lt hbc)
                have hac : ¬ a.toNat < c.toNat := by omega
                have hca : ¬ c.toNat < a.toNat := by omega
                rw [if_neg hab, if_neg hba] at h1
                rw [if_neg hbc, if_neg hcb] at h2
                rw [if_neg hac, if_neg hca]
                exact ih bs cs h1 h2

theorem idLe_total (a b : String) : idLe a b = true ∨ idLe b a = true :=
  lexLeChars_total a.data b.data

theorem idLe_trans (a b c : String) (h1 : idLe a b = true) (h2 : idLe b c = true) :
    idLe a c = true :=
  lexLeChars_trans a.data b.data c.data h1 h2

theorem leTxIndexed_iff (p q : DocId × TxDoc) :
    leTxIndexed p q = true ↔
      txDocDateKey q < txDocDateKey p ∨
        (txDocDateKey p = txDocDateKey q ∧ idLe q.1 p.1 = true) := by
  simp only [leTxIndexed]
  by_cases h1 : txDocDateKey q < txDocDateKey p
  · simp [h1]
  · by_cases h2 : txDocDateKey p < txDocDateKey q
    · simp [h1, h2]
      omega
    · have : txDocDateKey p = txDocDateKey q := by omega
      simp [h1, h2, this]

theorem leTxIndexed_trans (a b c : DocId × TxDoc)
    (h1 : leTxIndexed a b = true) (h2 : leTxIndexed b c = true) :
    leTxIndexed a c = true := by
  rw [leTxIndexed_iff] at h1 h2 ⊢
  rcases h1 with h1 | ⟨h1e, h1i⟩
  · rcases h2 with h2 | ⟨h2e, h2i⟩
    · exact Or.inl (Nat.lt_trans h2 h1)
    · exact Or.inl (h2e ▸ h1)
  · rcases h2 with h2 | ⟨h2e, h2i⟩
    · exact Or.inl (by omega)
    · exact Or.inr ⟨by omega, idLe_trans c.1 b.1 a.1 h2i h1i⟩

theorem leTxIndexed_total (a b : DocId × TxDoc) :
    (leTxIndexed a b || leTxIndexed b a) = true := by
  rcases Nat.lt_trichotomy (txDocDateKey a) (txDocDateKey b) with h | h | h
  · simp [leTxIndexed_iff, h]
  · rcases idLe_total a.1 b.1 with hi | hi <;>
      simp [leTxIndexed_iff, h, hi]
  · simp [leTxIndexed_iff, h]

theorem leTxViewDateDesc_trans (a b c : TxView)
    (h1 : leTxViewDateDesc a b = true) (h2 : leTxViewDateDesc b c = true) :
    leTxViewDateDesc a c = true := by
  simp only [leTxViewDateDesc, decide_eq_true_eq] at h1 h2 ⊢
  omega

theorem leTxViewDateDesc_total (a b : TxView) :
    (leTxViewDateDesc a b || leTxViewDateDesc b a) = true := by
  simp only [leTxViewDateDesc]
  by_cases h : txViewDateKey b ≤ txViewDateKey a
  · simp [h]
  · simp [h, Nat.le_of_not_le h]

/-- C4 amended: on any collection in which every transaction has a nonempty
date field, the fallback path returns a permutation of the indexed result
(same content); when additionally no two matching documents share the same
date, the fallback result is identical to the indexed result, content and
order. -/
theorem fallback_matches_indexed (s : Store) (inv : Option String)
    (hdate : ∀ p ∈ s.transactions.filter (txMatches inv), (p.2.date).getD "" ≠ "") :
    (fetchTransactionsFallback s inv).Perm (fetchTransactionsIndexed s inv) ∧
    ((s.transactions.filter (txMatches inv)).Pairwise
        (fun p q => txDocDateKey p ≠ txDocDateKey q) →
      fetchTransactionsFallback s inv = fetchTransactionsIndexed s inv) := by
  have hdate2 : ∀ p ∈ s.transactions.filter (txMatches inv), p.2.date.isSome := by
    intro p hp
    have hne := hdate p hp
    cases hdd : p.2.date with
    | none => rw [hdd] at hne; simp at hne
    | some d => rfl
  have hfilter : (s.transactions.filter (txMatches inv)).filter
      (fun p => p.2.date.isSome) = s.transactions.filter (txMatches inv) :=
    List.filter_eq_self.mpr hdate2
  have hkey : ∀ p ∈ s.transactions.filter (txMatches inv),
      txViewDateKey (processTxDoc s.todayDate p) = txDocDateKey p := by
    intro p hp
    have hne := hdate p hp
    cases hdd : p.2.date with
    | none => rw [hdd] at hne; simp at hne
    | some d =>
      rw [hdd] at hne
      simp only [Option.getD_some] at hne
      simp [txViewDateKey, txDocDateKey, processTxDoc, jsOrStr, hdd, hne]
  have hIdx : fetchTransactionsIndexed s inv =
      ((s.transactions.filter (txMatches inv)).mergeSort leTxIndexed).map
        (processTxDoc s.todayDate) := by
    unfold fetchTransactionsIndexed
    rw [hfilter]
  have hFB : fetchTransactionsFallback s inv =
      (((s.transactions.filter (txMatches inv)).mergeSort
          (fun p q => idLe p.1 q.1)).map (processTxDoc s.todayDate)).mergeSort
        leTxViewDateDesc := rfl
  have permFB : (fetchTransactionsFallback s inv).Perm
      ((s.transactions.filter (txMatches inv)).map (processTxDoc s.todayDate)) := by
    rw [hFB]
    exact (List.mergeSort_perm _ leTxViewDateDesc).trans
      ((List.mergeSort_perm _ _).map (processTxDoc s.todayDate))
  have permIdx : (fetchTransactionsIndexed s inv).Perm
      ((s.transactions.filter (txMatches inv)).map (processTxDoc s.todayDate)) := by
    rw [hIdx]
    exact (List.mergeSort_perm _ leTxIndexed).map (processTxDoc s.todayDate)
  refine ⟨permFB.trans permIdx.symm, ?_⟩
  intro hdist
  have hsortIdx : ((s.transactions.filter (txMatches inv)).mergeSort
      leTxIndexed).Pairwise (fun p q => leTxIndexed p q = true) :=
    List.sorted_mergeSort leTxIndexed_trans leTxIndexed_total _
  have hnedist : ((s.transactions.filter (txMatches inv)).mergeSort
      leTxIndexed).Pairwise (fun p q => txDocDateKey p ≠ txDocDateKey q) :=
    (List.Perm.pairwise_iff (fun h => Ne.symm h)
      (List.mergeSort_perm _ leTxIndexed)).mpr hdist
  have hstrictIdx : ((s.transactions.filter (txMatches inv)).mergeSort
      leTxIndexed).Pairwise (fun p q => txDocDateKey q < txDocDateKey p) := by
    refine (hsortIdx.and hnedist).imp ?_
    intro a b hpq
    rcases (leTxIndexed_iff a b).mp hpq.1 with h | ⟨he, -⟩
    · exact h
    · exact absurd he hpq.2
  have hpairIdxViews : (((s.transactions.filter (txMatches inv)).mergeSort
      leTxIndexed).map (processTxDoc s.todayDate)).Pairwise
        (fun a b => txViewDateKey b < txViewDateKey a) := by
    rw [List.pairwise_map]
    refine List.Pairwise.imp_of_mem ?_ hstrictIdx
    intro a b ha hb h
    rw [hkey a (List.mem_mergeSort.mp ha), hkey b (List.mem_mergeSort.mp hb)]
    exact h
  have hsortFB : (fetchTransactionsFallback s inv).Pairwise
      (fun a b => leTxViewDateDesc a b = true) := by
    rw [hFB]
    exact List.sorted_mergeSort leTxViewDateDesc_trans leTxViewDateDesc_total _
  have hpairLviews : ((s.transactions.filter (txMatches inv)).map
      (processTxDoc s.todayDate)).Pairwise
        (fun a b => txViewDateKey a ≠ txViewDateKey b) := by
    rw [List.pairwise_map]
    refine List.Pairwise.imp_of_mem ?_ hdist
    intro a b ha hb h
    rw [hkey a ha, hkey b hb]
    exact h
  have hneFB : (fetchTransactionsFallback s inv).Pairwise
      (fun a b => txViewDateKey a ≠ txViewDateKey b) :=
    (List.Perm.pairwise_iff (fun h => Ne.symm h) permFB).mpr hpairLviews
  have hstrictFB : (fetchTransactionsFallback s inv).Pairwise
      (fun a b => txViewDateKey b < txViewDateKey a) := by
    refine (hsortFB.and hneFB).imp ?_
    intro a b hpq
    have h1 := hpq.1
    have h2 := hpq.2
    simp only [leTxViewDateDesc, decide_eq_true_eq] at h1
    omega
  haveI : IsAntisymm TxView (fun a b => txViewDateKey b < txViewDateKey a) :=
    ⟨fun a b h1 h2 => absurd (Nat.lt_trans h1 h2) (Nat.lt_irrefl _)⟩
  have hIdxPair : (fetchTransactionsIndexed s inv).Pairwise
      (fun a b => txViewDateKey b < txViewDateKey a) := by
    rw [hIdx]
    exact hpairIdxViews
  exact List.eq_of_perm_of_sorted (permFB.trans permIdx.symm) hstrictFB hIdxPair

/-- Two transactions of the same investor sharing one calendar date. -/
def tieTxA : TxDoc :=
  { investorId := "inv1"
    type := some "Deposit"
    amount := some 10
    date := some "2024-01-01"
    status := some "Completed"
    description := some "first of the day"
    createdAt := some 1
    updatedAt := none }

/-- The second transaction on the same date. -/
def tieTxB : TxDoc :=
  { investorId := "inv1"
    type := some "Earnings"
    amount := some 20
    date := some "2024-01-01"
    status := some "Completed"
    description := some "second of the day"
    createdAt := some 2
    updatedAt := none }

/-- The base store holding the two date-tied transactions. -/
def tieStore : Store :=
  { baseStore with transactions := [("ta", tieTxA), ("tb", tieTxB)] }

unseal List.merge List.mergeSort in
/-- C4 counterexample: on a date tie the fallback path returns a different
order than the indexed path: the stable in-memory sort keeps the unordered
document-id-ascending enumeration, while the store breaks the tie by
document id descending. -/
theorem fallback_matches_indexed_counterexample :
    (fetchTransactionsFallback tieStore (some "inv1")).map TxView.id =
      ["ta", "tb"] ∧
    (fetchTransactionsIndexed tieStore (some "inv1")).map TxView.id =
      ["tb", "ta"] ∧
    (["ta", "tb"] : List String) ≠ ["tb", "ta"] := by
  refine ⟨?_, ?_, ?_⟩ <;> decide

/-- The example transactions of the specification: three distinct dates. -/
def exTx1 : TxDoc := { tieTxA with date := some "2024-01-01" }

/-- Second example transaction. -/
def exTx2 : TxDoc := { tieTxA with date := some "2024-03-01" }

/-- Third example transaction. -/
def exTx3 : TxDoc := { tieTxA with date := some "2024-02-01" }

/-- The base store holding the three example transactions. -/
def exDatesStore : Store :=
  { baseStore with
      transactions := [("d1", exTx1), ("d2", exTx2), ("d3", exTx3)] }

unseal List.merge List.mergeSort in
/-- C4 witness: on the specification example (dates 2024-01-01, 2024-03-01,
2024-02-01, all distinct) the fallback equals the indexed result, in the
order [03-01, 02-01, 01-01]. -/
theorem fallback_matches_indexed_witness :
    fetchTransactionsFallback exDatesStore (some "inv1") =
      fetchTransactionsIndexed exDatesStore (some "inv1") ∧
    (fetchTransactionsFallback exDatesStore (some "inv1")).map TxView.date =
      ["2024-03-01", "2024-02-01", "2024-01-01"] :=
  ⟨(fallback_matches_indexed exDatesStore (some "inv1") (by decide)).2 (by decide),
    by decide⟩
